import Mathlib

/-!
Verification of the per-frame control, camera and resource logic of the
`Experience.tsx` scene controller (spaceship flight vignette).

The per-frame callbacks of the source file are shallowly embedded as pure
functions over real-valued state records:

* `frameStep` embeds the `useFrame` body of `SpaceshipController`;
* `controllerFrame` additionally models the `!spaceshipRef.current` early
  return via a `ready` flag;
* `cameraFrame` / `cameraInit` embed `CameraRig`;
* `mousePlaneHandler` embeds `MousePlane.handlePointerMove`;
* `envFrame` / `envUnmount` embed the resource lifecycle of `DynamicEnvMap`
  at the granularity of generated environment maps (identified by a counter).

Vector operations follow the three.js implementations used by the source
(`Vector3.sub`, `Vector3.normalize` which divides by `length() || 1`,
`Vector3.dot`, `Vector3.lerp`, `MathUtils.lerp`).
-/

noncomputable section

/-- Real-valued 3D vector, mirroring `THREE.Vector3`. -/
structure Vec3 where
  x : ℝ
  y : ℝ
  z : ℝ

/-- `THREE.Vector3.sub`: componentwise subtraction. -/
def Vec3.sub (a b : Vec3) : Vec3 := ⟨a.x - b.x, a.y - b.y, a.z - b.z⟩

/-- `THREE.Vector3.length`: Euclidean length `sqrt(x*x + y*y + z*z)`. -/
def Vec3.length (v : Vec3) : ℝ := Real.sqrt (v.x * v.x + v.y * v.y + v.z * v.z)

/-- `THREE.Vector3.normalize`: `divideScalar(length() || 1)`, i.e. each
component is multiplied by `1 / length`, except that a zero length falls
back to dividing by `1` (so the zero vector is left unchanged). -/
def Vec3.normalize (v : Vec3) : Vec3 :=
  let l := if v.length = 0 then 1 else v.length
  ⟨v.x * (1 / l), v.y * (1 / l), v.z * (1 / l)⟩

/-- `THREE.Vector3.dot`. -/
def Vec3.dot (a b : Vec3) : ℝ := a.x * b.x + a.y * b.y + a.z * b.z

/-- The up vector `new THREE.Vector3(0, 1, 0)` used in the yaw computation. -/
def upVec : Vec3 := ⟨0, 1, 0⟩

/-- `Math.max lo (Math.min hi v)`, the clamping pattern used throughout the
source (`Math.max(-3, Math.min(1, mousePoint.y))` etc.). -/
def clampR (lo hi v : ℝ) : ℝ := max lo (min hi v)

/-- The mutable refs of `SpaceshipController` gathered into one record:
`translateY`, `translateAcceleration`, `angleZ`, `angleAcceleration`,
`pitchAngle`, `pitchAcceleration` (all initialized to `0` by `useRef(0)`). -/
structure ControlState where
  translateY : ℝ
  translateAcceleration : ℝ
  angleZ : ℝ
  angleAcceleration : ℝ
  pitchAngle : ℝ
  pitchAcceleration : ℝ

/-- Initial controller state: every ref starts at `0`. -/
def initState : ControlState := ⟨0, 0, 0, 0, 0, 0⟩

/-- The cosine of the angle between the steering direction and the up
vector: `mousePoint.clone().sub(new Vector3(0, translateY, 0)).normalize()
.dot(new Vector3(0, 1, 0))`. -/
def dirCosOf (mousePoint : Vec3) (translateY : ℝ) : ℝ :=
  Vec3.dot (Vec3.normalize (Vec3.sub mousePoint ⟨0, translateY, 0⟩)) upVec

/-- The clamped yaw spring target of a frame:
`Math.max(-Math.PI/4, Math.min(Math.PI/4, Math.acos(dirCos) - Math.PI/2))`. -/
def yawTargetOf (mousePoint : Vec3) (translateY : ℝ) : ℝ :=
  clampR (-(Real.pi / 4)) (Real.pi / 4)
    (Real.arccos (dirCosOf mousePoint translateY) - Real.pi / 2)

/-- One execution of the `useFrame` body of `SpaceshipController` (after the
`spaceshipRef` guard), with the frame's `mousePoint` and `turbo` props.
Statement order follows the source: turbo/manual acceleration bumps, then
translate damping and integration, then pitch damping and integration, then
the yaw target (computed from the already-updated `translateY`), the manual
yaw bump guarded by `!turbo`, yaw damping and integration. -/
def frameStep (turbo : ℝ) (mousePoint : Vec3) (s : ControlState) : ControlState :=
  let translateAcceleration0 :=
    if turbo > 0 then s.translateAcceleration + (0 - s.translateY) * 0.01
    else s.translateAcceleration + (clampR (-3) 1 mousePoint.y - s.translateY) * 0.002
  let angleAcceleration0 :=
    if turbo > 0 then s.angleAcceleration + (0 - s.angleZ) * 0.01
    else s.angleAcceleration
  let pitchAcceleration0 :=
    if turbo > 0 then s.pitchAcceleration + (0 - s.pitchAngle) * 0.01
    else s.pitchAcceleration + (mousePoint.z * 0.5 - s.pitchAngle) * 0.01
  let translateAcceleration1 := translateAcceleration0 * 0.95
  let translateY1 := s.translateY + translateAcceleration1
  let pitchAcceleration1 := pitchAcceleration0 * 0.85
  let pitchAngle1 := s.pitchAngle + pitchAcceleration1
  let boundedAngle := yawTargetOf mousePoint translateY1
  let angleAcceleration2 :=
    if turbo = 0 then angleAcceleration0 + (boundedAngle - s.angleZ) * 0.01
    else angleAcceleration0
  let angleAcceleration3 := angleAcceleration2 * 0.75
  let angleZ1 := s.angleZ + angleAcceleration3
  { translateY := translateY1
    translateAcceleration := translateAcceleration1
    angleZ := angleZ1
    angleAcceleration := angleAcceleration3
    pitchAngle := pitchAngle1
    pitchAcceleration := pitchAcceleration1 }

/-- The inputs a single controller frame depends on: whether the spaceship
mesh ref is non-null, the `turbo` prop and the `mousePoint` prop. -/
structure FrameInput where
  ready : Bool
  turbo : ℝ
  mouse : Vec3

/-- A full controller frame including the `if (!spaceshipRef.current) return`
early exit: when the mesh is not ready the state is left untouched. -/
def controllerFrame (i : FrameInput) (s : ControlState) : ControlState :=
  if i.ready then frameStep i.turbo i.mouse s else s

/-- The controller state after a sequence of frames, starting from the
all-zero initial refs. -/
def runController (inputs : List FrameInput) : ControlState :=
  List.foldl (fun s i => controllerFrame i s) initState inputs

/-- The yaw actually written to the entity each frame:
`rotation.set(boundedPitch, -Math.PI/2, angleZ.current, 'YZX')` uses the
integrated `angleZ` (z slot) directly. On a skipped frame the previously
applied value persists. -/
def appliedYaw (i : FrameInput) (s : ControlState) : ℝ :=
  (controllerFrame i s).angleZ

/-- The pitch actually written to the entity each frame:
`Math.max(-Math.PI/6, Math.min(Math.PI/6, pitchAngle.current))` applied to
the post-update pitch. -/
def appliedPitch (i : FrameInput) (s : ControlState) : ℝ :=
  clampR (-(Real.pi / 6)) (Real.pi / 6) (controllerFrame i s).pitchAngle

/-- A generic step of the two-variable spring law actually implemented by the
source: the acceleration ref accumulates the spring force and is damped, then
is added to the value (`accel += (target - value) * k; accel *= damping;
value += accel`). Returns `(value', accel')`. -/
def springStep (k damping target value accel : ℝ) : ℝ × ℝ :=
  let accel1 := (accel + (target - value) * k) * damping
  (value + accel1, accel1)

/-- Modelled from the spec: the three-variable update law as literally
written in the specification, `accel += (target - value) * k;
vel = (vel + accel) * damping; value += vel`, with a persistent velocity
distinct from the accumulated acceleration. State is `(value, vel, accel)`.
This definition follows the spec's words and exists only to be compared
with the source-derived `frameStep` / `springStep`. -/
def specLawStep (k damping target : ℝ) (st : ℝ × ℝ × ℝ) : ℝ × ℝ × ℝ :=
  let accel1 := st.2.2 + (target - st.1) * k
  let vel1 := (st.2.1 + accel1) * damping
  (st.1 + vel1, vel1, accel1)

/-- `MousePlane.handlePointerMove`: during turbo (`turbo > 0`) the event is
dropped (`none`); otherwise `intersectionPoint.set(-3, event.point.y,
event.point.z)` is delivered to `onMove`. -/
def mousePlaneHandler (turbo : ℝ) (point : Vec3) : Option Vec3 :=
  if turbo > 0 then none else some ⟨-3, point.y, point.z⟩

/-- Live camera state of `CameraRig`: position, current look-at target and
field of view. -/
structure CameraState where
  position : Vec3
  lookAt : Vec3
  fov : ℝ

/-- `basePosition = new THREE.Vector3(-4, 4, 6)`. -/
def basePosition : Vec3 := ⟨-4, 4, 6⟩

/-- `baseLookAt = new THREE.Vector3(0, 0, 0)`. -/
def baseLookAt : Vec3 := ⟨0, 0, 0⟩

/-- `turboPosition = new THREE.Vector3(5, 1, 1)`. -/
def turboPosition : Vec3 := ⟨5, 1, 1⟩

/-- `turboLookAt = new THREE.Vector3(-5, 0, 0)`. -/
def turboLookAt : Vec3 := ⟨-5, 0, 0⟩

/-- `turbo ? turboPosition : basePosition` (JS truthiness: `0` is falsy). -/
def camTargetPos (turbo : ℝ) : Vec3 :=
  if turbo = 0 then basePosition else turboPosition

/-- `turbo ? turboLookAt : baseLookAt`. -/
def camTargetLook (turbo : ℝ) : Vec3 :=
  if turbo = 0 then baseLookAt else turboLookAt

/-- `targetFOV = 40 + (turbo * 15)`. -/
def camTargetFov (turbo : ℝ) : ℝ := 40 + turbo * 15

/-- `THREE.MathUtils.lerp(x, y, t) = (1 - t) * x + t * y`. -/
def mathLerp (x y t : ℝ) : ℝ := (1 - t) * x + t * y

/-- `THREE.Vector3.lerp`: `this.x += (v.x - this.x) * alpha` componentwise. -/
def vecLerp (v w : Vec3) (t : ℝ) : Vec3 :=
  ⟨v.x + (w.x - v.x) * t, v.y + (w.y - v.y) * t, v.z + (w.z - v.z) * t⟩

/-- One execution of the `useFrame` body of `CameraRig`: position lerps
toward the active target with factor `0.05`, the look-at target is applied
immediately, the FOV lerps toward `40 + turbo * 15` with factor `0.02`. -/
def cameraFrame (turbo : ℝ) (s : CameraState) : CameraState :=
  { position := vecLerp s.position (camTargetPos turbo) 0.05
    lookAt := camTargetLook turbo
    fov := mathLerp s.fov (camTargetFov turbo) 0.02 }

/-- The mount effect of `CameraRig`: `camera.position.copy(basePosition);
camera.lookAt(baseLookAt); fov = 40`. -/
def cameraInit : CameraState :=
  { position := basePosition, lookAt := baseLookAt, fov := 40 }

/-- `n` camera frames at a constant turbo value. -/
def camIter (turbo : ℝ) : ℕ → CameraState → CameraState
  | 0, s => s
  | n + 1, s => cameraFrame turbo (camIter turbo n s)

/-- Resource-lifecycle state of `DynamicEnvMap`: generated environment maps
are identified by a running counter; `prevMap` is the `previousEnvMap` ref,
`created` / `disposed` record which maps have been produced by
`pmrem.fromScene` and released by `dispose()`, and `generatorDisposed`
records `pmrem.dispose()`. -/
structure EnvMapState where
  nextId : ℕ
  prevMap : Option ℕ
  created : Finset ℕ
  disposed : Finset ℕ
  generatorDisposed : Bool

/-- Mount state: no map generated yet, `previousEnvMap.current = null`. -/
def envInit : EnvMapState := ⟨0, none, ∅, ∅, false⟩

/-- One execution of the `useFrame` body of `DynamicEnvMap`: a fresh map is
produced by `pmrem.fromScene(scene)`, then the previous frame's map (if any)
is disposed, then the fresh map is remembered in `previousEnvMap`. -/
def envFrame (s : EnvMapState) : EnvMapState :=
  { nextId := s.nextId + 1
    prevMap := some s.nextId
    created := insert s.nextId s.created
    disposed :=
      match s.prevMap with
      | some p => insert p s.disposed
      | none => s.disposed
    generatorDisposed := s.generatorDisposed }

/-- The unmount cleanup of `DynamicEnvMap`: the surviving map (if any) is
disposed and `pmrem.dispose()` is called. -/
def envUnmount (s : EnvMapState) : EnvMapState :=
  { s with
    prevMap := none
    disposed :=
      match s.prevMap with
      | some p => insert p s.disposed
      | none => s.disposed
    generatorDisposed := true }

/-- Environment maps generated but not yet disposed. -/
def envAlive (s : EnvMapState) : Finset ℕ := s.created \ s.disposed

/-- The env-map state after `n` rendered frames. -/
def envRun : ℕ → EnvMapState
  | 0 => envInit
  | n + 1 => envFrame (envRun n)

/-- Invariant used for the yaw bound: the integrated yaw stays inside the
clamp range `[-pi/4, pi/4]` and the damped acceleration is small relative to
the remaining headroom on each side. -/
def YawInv (s : ControlState) : Prop :=
  -(Real.pi / 4) ≤ s.angleZ ∧ s.angleZ ≤ Real.pi / 4 ∧
    s.angleAcceleration ≤ (1 / 10) * (Real.pi / 4 - s.angleZ) ∧
    -s.angleAcceleration ≤ (1 / 10) * (Real.pi / 4 + s.angleZ)

end

/-! ## Basic lemmas -/

theorem clampR_le {lo hi v : ℝ} (h : lo ≤ hi) : clampR lo hi v ≤ hi :=
  max_le h (min_le_left _ _)

theorem le_clampR (lo hi v : ℝ) : lo ≤ clampR lo hi v :=
  le_max_left _ _

/-- Claim C8: when the spaceship mesh is not yet loaded (`spaceshipRef`
null), the whole steering update is skipped: every component of the control
state is unchanged and no error is surfaced (the step is total). -/
theorem controller_skip_not_ready (turbo : ℝ) (m : Vec3) (s : ControlState) :
    controllerFrame ⟨false, turbo, m⟩ s = s := by
  simp [controllerFrame]

/-- Claim C10: every pointer-move event processed in manual mode delivers
the point `(-3, event.point.y, event.point.z)` to the controller: the x
coordinate is the constant `-3` and only the pointer's y and z components
get through. -/
theorem mousePlane_x_constant (p : Vec3) :
    mousePlaneHandler 0 p = some ⟨-3, p.y, p.z⟩ ∧
      (Vec3.x ⟨-3, p.y, p.z⟩ = -3 ∧ Vec3.y ⟨-3, p.y, p.z⟩ = p.y ∧
        Vec3.z ⟨-3, p.y, p.z⟩ = p.z) := by
  refine ⟨?_, rfl, rfl, rfl⟩
  simp [mousePlaneHandler]

/-- Claim C4: in manual mode the vertical spring target fed to the
integrator is `clamp(pointer.y, -3, 1)` (clamped before integration), and
the integrated `translateY` itself is never clamped: it is exactly the old
value plus the damped acceleration, and it can in fact leave `[-3, 1]`. -/
theorem vertical_target_clamped (m : Vec3) (s : ControlState) :
    (frameStep 0 m s).translateAcceleration =
      (s.translateAcceleration + (clampR (-3) 1 m.y - s.translateY) * 0.002) * 0.95 ∧
    (frameStep 0 m s).translateY =
      s.translateY + (frameStep 0 m s).translateAcceleration ∧
    ∃ s' : ControlState, ∃ m' : Vec3, 1 < (frameStep 0 m' s').translateY := by
  refine ⟨by norm_num [frameStep], by norm_num [frameStep], ⟨5, 0, 0, 0, 0, 0⟩, ⟨-3, 0, 0⟩, ?_⟩
  norm_num [frameStep, clampR, min_def, max_def]

/-- Claim C5: each frame `CameraRig` moves the position by
`(target - position) * 0.05` and the FOV by `(target - fov) * 0.02` toward
BASE (position `(-4,4,6)`, lookAt `(0,0,0)`, fov `40`) when `turbo = 0` and
toward TURBO (position `(5,1,1)`, lookAt `(-5,0,0)`, fov `55`) when
`turbo = 1`; the look-at target is applied immediately; initialization sets
position, look-at and fov exactly to BASE. -/
theorem cameraRig_step_spec (s : CameraState) :
    (cameraFrame 0 s).position.x = s.position.x + (-4 - s.position.x) * 0.05 ∧
    (cameraFrame 0 s).position.y = s.position.y + (4 - s.position.y) * 0.05 ∧
    (cameraFrame 0 s).position.z = s.position.z + (6 - s.position.z) * 0.05 ∧
    (cameraFrame 0 s).fov = s.fov + (40 - s.fov) * 0.02 ∧
    (cameraFrame 0 s).lookAt = ⟨0, 0, 0⟩ ∧
    (cameraFrame 1 s).position.x = s.position.x + (5 - s.position.x) * 0.05 ∧
    (cameraFrame 1 s).position.y = s.position.y + (1 - s.position.y) * 0.05 ∧
    (cameraFrame 1 s).position.z = s.position.z + (1 - s.position.z) * 0.05 ∧
    (cameraFrame 1 s).fov = s.fov + (55 - s.fov) * 0.02 ∧
    (cameraFrame 1 s).lookAt = ⟨-5, 0, 0⟩ ∧
    cameraInit.position = ⟨-4, 4, 6⟩ ∧ cameraInit.lookAt = ⟨0, 0, 0⟩ ∧
    cameraInit.fov = 40 := by
  refine ⟨?_, ?_, ?_, ?_, ?_, ?_, ?_, ?_, ?_, ?_, rfl, rfl, rfl⟩ <;>
    norm_num [cameraFrame, vecLerp, mathLerp, camTargetPos, camTargetLook,
      camTargetFov, basePosition, baseLookAt, turboPosition, turboLookAt] <;>
    ring

/-- Claim C7: with `turbo = 1` the vertical, pitch and yaw springs all pull
toward target `0` with spring constant `0.01` (vertical damping `0.95`,
pitch `0.85`, yaw `0.75`), the whole frame update is independent of the
pointer, and `MousePlane` drops pointer events entirely. -/
theorem turbo_autocenter (m m' : Vec3) (s : ControlState) (p : Vec3) :
    frameStep 1 m s = frameStep 1 m' s ∧
    ((frameStep 1 m s).translateY, (frameStep 1 m s).translateAcceleration) =
      springStep 0.01 0.95 0 s.translateY s.translateAcceleration ∧
    ((frameStep 1 m s).pitchAngle, (frameStep 1 m s).pitchAcceleration) =
      springStep 0.01 0.85 0 s.pitchAngle s.pitchAcceleration ∧
    ((frameStep 1 m s).angleZ, (frameStep 1 m s).angleAcceleration) =
      springStep 0.01 0.75 0 s.angleZ s.angleAcceleration ∧
    mousePlaneHandler 1 p = none := by
  refine ⟨?_, ?_, ?_, ?_, ?_⟩ <;>
    norm_num [frameStep, springStep, mousePlaneHandler]

/-- Claim C1 (amended): each steered quantity is advanced by the
two-variable spring law `accel += (target - value) * k; accel *= damping;
value += accel` — the damped acceleration ref doubles as the velocity, and
there is no separate persistent velocity — with constants vertical
`k = 0.002` (manual) / `0.01` (turbo), damping `0.95`; pitch `k = 0.01`,
damping `0.85`; yaw `k = 0.01`, damping `0.75` (yaw target from the
already-updated vertical value in manual mode, `0` in turbo mode). -/
theorem controller_spring_law (m : Vec3) (s : ControlState) :
    ((frameStep 0 m s).translateY, (frameStep 0 m s).translateAcceleration) =
      springStep 0.002 0.95 (clampR (-3) 1 m.y) s.translateY s.translateAcceleration ∧
    ((frameStep 0 m s).pitchAngle, (frameStep 0 m s).pitchAcceleration) =
      springStep 0.01 0.85 (m.z * 0.5) s.pitchAngle s.pitchAcceleration ∧
    ((frameStep 0 m s).angleZ, (frameStep 0 m s).angleAcceleration) =
      springStep 0.01 0.75 (yawTargetOf m (frameStep 0 m s).translateY)
        s.angleZ s.angleAcceleration ∧
    ((frameStep 1 m s).translateY, (frameStep 1 m s).translateAcceleration) =
      springStep 0.01 0.95 0 s.translateY s.translateAcceleration ∧
    ((frameStep 1 m s).pitchAngle, (frameStep 1 m s).pitchAcceleration) =
      springStep 0.01 0.85 0 s.pitchAngle s.pitchAcceleration ∧
    ((frameStep 1 m s).angleZ, (frameStep 1 m s).angleAcceleration) =
      springStep 0.01 0.75 0 s.angleZ s.angleAcceleration := by
  refine ⟨?_, ?_, ?_, ?_, ?_, ?_⟩ <;>
    norm_num [frameStep, springStep]

/-- Claim C1 is refuted as stated: iterating the spec's three-variable law
(`accel` accumulating undamped, a separate damped `vel`) and the code's
update from rest toward the constant vertical target `1` in manual mode
already disagree after two frames: the code reaches `translateY =
0.00560139` while the spec's law reaches `value = 0.00750139`. -/
theorem spec_three_variable_law_refuted :
    (frameStep 0 ⟨-3, 1, 0⟩ (frameStep 0 ⟨-3, 1, 0⟩ initState)).translateY =
      560139 / 100000000 ∧
    (specLawStep 0.002 0.95 1 (specLawStep 0.002 0.95 1 (0, 0, 0))).1 =
      750139 / 100000000 ∧
    (560139 / 100000000 : ℝ) < 750139 / 100000000 := by
  refine ⟨?_, ?_, by norm_num⟩
  · norm_num [frameStep, initState, clampR, min_def, max_def]
  · norm_num [specLawStep]

theorem envRun_closed : ∀ n : ℕ, envRun n =
    ⟨n, if n = 0 then none else some (n - 1),
      Finset.range n, Finset.range (n - 1), false⟩ := by
  intro n
  induction n with
  | zero => simp [envRun, envInit]
  | succ n ih =>
    rcases n with _ | m
    · simp [envRun, envFrame, ih, envInit]
    · rw [show envRun (m + 1 + 1) = envFrame (envRun (m + 1)) from rfl, ih]
      simp [envFrame, Finset.range_succ]

theorem range_succ_sdiff (m : ℕ) :
    Finset.range (m + 1) \ Finset.range m = {m} := by
  ext x
  simp only [Finset.mem_sdiff, Finset.mem_range, Finset.mem_singleton]
  omega

/-- Claim C9: across any number of frames at most one generated environment
map is alive at a time (the previous frame's map is disposed within the
frame that produces the new one), and unmount disposes the last surviving
map and the PMREM generator. -/
theorem envmap_single_alive (n : ℕ) :
    (envAlive (envRun n)).card ≤ 1 ∧
    envAlive (envUnmount (envRun n)) = ∅ ∧
    (envUnmount (envRun n)).generatorDisposed = true := by
  rw [envRun_closed n]
  rcases n with _ | m
  · refine ⟨?_, ?_, rfl⟩ <;> simp [envAlive, envUnmount]
  · refine ⟨?_, ?_, rfl⟩
    · simp only [envAlive, Nat.succ_ne_zero, if_neg, if_false, Nat.succ_sub_one,
        range_succ_sdiff]
      simp
    · simp only [envAlive, envUnmount, Nat.succ_ne_zero, if_neg, if_false,
        Nat.succ_sub_one, ← Finset.range_succ]
      exact Finset.sdiff_self _

theorem Vec3.length_nonneg (v : Vec3) : 0 ≤ v.length :=
  Real.sqrt_nonneg _

theorem Vec3.y_eq_zero_of_length_zero {v : Vec3} (h : v.length = 0) : v.y = 0 := by
  have hsum : v.x * v.x + v.y * v.y + v.z * v.z ≤ 0 :=
    Real.sqrt_eq_zero'.mp h
  have hy : v.y * v.y ≤ 0 := by
    nlinarith [mul_self_nonneg v.x, mul_self_nonneg v.z]
  exact mul_self_eq_zero.mp (le_antisymm hy (mul_self_nonneg v.y))

theorem Vec3.abs_y_le_length (v : Vec3) : |v.y| ≤ v.length := by
  have h1 : v.y * v.y ≤ v.x * v.x + v.y * v.y + v.z * v.z := by
    nlinarith [mul_self_nonneg v.x, mul_self_nonneg v.z]
  calc |v.y| = Real.sqrt (v.y * v.y) := (Real.sqrt_mul_self_eq_abs v.y).symm
    _ ≤ Real.sqrt (v.x * v.x + v.y * v.y + v.z * v.z) := Real.sqrt_le_sqrt h1
    _ = v.length := rfl

theorem dirCosOf_eq (m : Vec3) (ty : ℝ) :
    dirCosOf m ty =
      (Vec3.sub m ⟨0, ty, 0⟩).y *
        (1 / (if (Vec3.sub m ⟨0, ty, 0⟩).length = 0 then 1
              else (Vec3.sub m ⟨0, ty, 0⟩).length)) := by
  simp [dirCosOf, Vec3.normalize, Vec3.dot, upVec]

theorem dirCosOf_of_length_zero {m : Vec3} {ty : ℝ}
    (h : (Vec3.sub m ⟨0, ty, 0⟩).length = 0) : dirCosOf m ty = 0 := by
  rw [dirCosOf_eq, if_pos h, Vec3.y_eq_zero_of_length_zero h, zero_mul]

theorem dirCosOf_mem (m : Vec3) (ty : ℝ) :
    -1 ≤ dirCosOf m ty ∧ dirCosOf m ty ≤ 1 := by
  by_cases h : (Vec3.sub m ⟨0, ty, 0⟩).length = 0
  · rw [dirCosOf_of_length_zero h]
    norm_num
  · rw [dirCosOf_eq, if_neg h]
    set v := Vec3.sub m ⟨0, ty, 0⟩ with hv
    have hpos : 0 < v.length := lt_of_le_of_ne (Vec3.length_nonneg v) (Ne.symm h)
    have habs : |v.y * (1 / v.length)| ≤ 1 := by
      rw [abs_mul, abs_of_pos (by positivity : (0:ℝ) < 1 / v.length)]
      calc |v.y| * (1 / v.length) ≤ v.length * (1 / v.length) :=
            mul_le_mul_of_nonneg_right (Vec3.abs_y_le_length v) (by positivity)
        _ = 1 := by field_simp
    exact abs_le.mp habs

theorem clampR_quarter_pi_zero : clampR (-(Real.pi / 4)) (Real.pi / 4) 0 = 0 := by
  have hpi := Real.pi_pos
  unfold clampR
  rw [min_eq_right (by linarith), max_eq_right (by linarith)]

theorem yawTargetOf_of_length_zero {m : Vec3} {ty : ℝ}
    (h : (Vec3.sub m ⟨0, ty, 0⟩).length = 0) : yawTargetOf m ty = 0 := by
  rw [yawTargetOf, dirCosOf_of_length_zero h, Real.arccos_zero, sub_self,
    clampR_quarter_pi_zero]

/-- Claim C3 (amended): when the direction vector has zero length there is
no short-circuit; three.js `normalize` divides by `length() || 1`, leaving
the zero vector, so the dot with up is `0` and the yaw spring target is
freshly computed as `acos(0) - pi/2 = 0` (then clamped) — a constant
fallback rather than the retained previous target. No undefined angle
arises: the `acos` argument always lies in `[-1, 1]`. -/
theorem zero_direction_fallback (m : Vec3) (ty : ℝ) :
    ((Vec3.sub m ⟨0, ty, 0⟩).length = 0 → yawTargetOf m ty = 0) ∧
    -1 ≤ dirCosOf m ty ∧ dirCosOf m ty ≤ 1 :=
  ⟨fun h => yawTargetOf_of_length_zero h, (dirCosOf_mem m ty).1, (dirCosOf_mem m ty).2⟩

/-- Witness for `zero_direction_fallback` at the concrete initial frame
input `mousePoint = (0,0,0)`, `translateY = 0`, whose direction vector has
zero length. -/
theorem zero_direction_fallback_witness :
    yawTargetOf ⟨0, 0, 0⟩ 0 = 0 ∧
    -1 ≤ dirCosOf ⟨0, 0, 0⟩ 0 ∧ dirCosOf ⟨0, 0, 0⟩ 0 ≤ 1 := by
  have hlen : (Vec3.sub ⟨0, 0, 0⟩ ⟨0, 0, 0⟩).length = 0 := by
    simp [Vec3.sub, Vec3.length]
  exact ⟨(zero_direction_fallback ⟨0, 0, 0⟩ 0).1 hlen,
    (zero_direction_fallback ⟨0, 0, 0⟩ 0).2.1,
    (zero_direction_fallback ⟨0, 0, 0⟩ 0).2.2⟩

/-- Claim C3 is refuted as stated: against the controller's frame interface,
a first frame with `mousePoint = (0, 5, 0)` from the initial state yields the
nonzero yaw target `-pi/4`, yet on a following frame whose direction vector
has exactly zero length the yaw target is the freshly computed `0`, not the
retained previous target: no short-circuit exists in the code. -/
theorem zero_direction_retention_refuted :
    yawTargetOf ⟨0, 5, 0⟩ (frameStep 0 ⟨0, 5, 0⟩ initState).translateY =
      -(Real.pi / 4) ∧
    -(Real.pi / 4) < 0 ∧
    (Vec3.sub ⟨0, 370139 / 99810000, 0⟩
      ⟨0, (frameStep 0 ⟨0, 370139 / 99810000, 0⟩
            (frameStep 0 ⟨0, 5, 0⟩ initState)).translateY, 0⟩).length = 0 ∧
    yawTargetOf ⟨0, 370139 / 99810000, 0⟩
      (frameStep 0 ⟨0, 370139 / 99810000, 0⟩
        (frameStep 0 ⟨0, 5, 0⟩ initState)).translateY = 0 := by
  have hpi := Real.pi_pos
  have htY1 : (frameStep 0 ⟨0, 5, 0⟩ initState).translateY = 19 / 10000 := by
    norm_num [frameStep, initState, clampR, min_def, max_def]
  have htY2 : (frameStep 0 ⟨0, 370139 / 99810000, 0⟩
      (frameStep 0 ⟨0, 5, 0⟩ initState)).translateY = 370139 / 99810000 := by
    norm_num [frameStep, initState, clampR, min_def, max_def]
  have hlenzero : (Vec3.sub ⟨0, 370139 / 99810000, 0⟩
      ⟨0, (frameStep 0 ⟨0, 370139 / 99810000, 0⟩
            (frameStep 0 ⟨0, 5, 0⟩ initState)).translateY, 0⟩).length = 0 := by
    rw [htY2]
    simp [Vec3.sub, Vec3.length]
  refine ⟨?_, by linarith, hlenzero, yawTargetOf_of_length_zero hlenzero⟩
  rw [htY1]
  have hlen1 : (Vec3.sub ⟨0, 5, 0⟩ ⟨0, 19 / 10000, 0⟩).length = 49981 / 10000 := by
    simp only [Vec3.sub, Vec3.length]
    rw [show ((0:ℝ) - 0) * ((0:ℝ) - 0) + ((5:ℝ) - 19 / 10000) * ((5:ℝ) - 19 / 10000) +
        ((0:ℝ) - 0) * ((0:ℝ) - 0) = (49981 / 10000) ^ 2 by norm_num]
    exact Real.sqrt_sq (by norm_num)
  have hcos : dirCosOf ⟨0, 5, 0⟩ (19 / 10000) = 1 := by
    rw [dirCosOf_eq, if_neg (by rw [hlen1]; norm_num), hlen1]
    show ((5:ℝ) - 19 / 10000) * (1 / (49981 / 10000)) = 1
    norm_num
  rw [yawTargetOf, hcos, Real.arccos_one, zero_sub, clampR,
    min_eq_right (by linarith), max_eq_left (by linarith)]

theorem spring_bump_inv (B y a T : ℝ) (_hB : 0 < B) (hy1 : -B ≤ y) (hy2 : y ≤ B)
    (ha1 : a ≤ 1 / 10 * (B - y)) (ha2 : -a ≤ 1 / 10 * (B + y))
    (hT1 : -B ≤ T) (hT2 : T ≤ B) :
    -B ≤ y + (a + (T - y) * 0.01) * 0.75 ∧
    y + (a + (T - y) * 0.01) * 0.75 ≤ B ∧
    (a + (T - y) * 0.01) * 0.75 ≤ 1 / 10 * (B - (y + (a + (T - y) * 0.01) * 0.75)) ∧
    -((a + (T - y) * 0.01) * 0.75) ≤ 1 / 10 * (B + (y + (a + (T - y) * 0.01) * 0.75)) := by
  norm_num
  refine ⟨by linarith, by linarith, by linarith, by linarith⟩

theorem spring_decay_inv (B y a : ℝ) (_hB : 0 < B) (hy1 : -B ≤ y) (hy2 : y ≤ B)
    (ha1 : a ≤ 1 / 10 * (B - y)) (ha2 : -a ≤ 1 / 10 * (B + y)) :
    -B ≤ y + a * 0.75 ∧
    y + a * 0.75 ≤ B ∧
    a * 0.75 ≤ 1 / 10 * (B - (y + a * 0.75)) ∧
    -(a * 0.75) ≤ 1 / 10 * (B + (y + a * 0.75)) := by
  norm_num
  refine ⟨by linarith, by linarith, by linarith, by linarith⟩

theorem frameStep_angle_cases (turbo : ℝ) (m : Vec3) (s : ControlState) :
    (∃ T : ℝ, -(Real.pi / 4) ≤ T ∧ T ≤ Real.pi / 4 ∧
      (frameStep turbo m s).angleAcceleration =
        (s.angleAcceleration + (T - s.angleZ) * 0.01) * 0.75 ∧
      (frameStep turbo m s).angleZ =
        s.angleZ + (frameStep turbo m s).angleAcceleration) ∨
    ((frameStep turbo m s).angleAcceleration = s.angleAcceleration * 0.75 ∧
      (frameStep turbo m s).angleZ =
        s.angleZ + (frameStep turbo m s).angleAcceleration) := by
  have hpi := Real.pi_pos
  by_cases htp : turbo > 0
  · left
    refine ⟨0, by linarith, by linarith, ?_, ?_⟩ <;>
      simp [frameStep, htp, ne_of_gt htp]
  · by_cases ht0 : turbo = 0
    · left
      refine ⟨yawTargetOf m (s.translateY +
          (s.translateAcceleration + (clampR (-3) 1 m.y - s.translateY) * 0.002) * 0.95),
        le_clampR _ _ _, clampR_le (by linarith), ?_, ?_⟩ <;>
        simp [frameStep, ht0, htp]
    · right
      constructor <;> simp [frameStep, htp, ht0]

theorem yawInv_controllerFrame (i : FrameInput) (s : ControlState) (h : YawInv s) :
    YawInv (controllerFrame i s) := by
  unfold controllerFrame
  by_cases hr : i.ready = true
  · rw [if_pos hr]
    obtain ⟨h1, h2, h3, h4⟩ := h
    have hB : (0 : ℝ) < Real.pi / 4 := by linarith [Real.pi_pos]
    rcases frameStep_angle_cases i.turbo i.mouse s with ⟨T, hT1, hT2, ha, hz⟩ | ⟨ha, hz⟩
    · unfold YawInv
      rw [hz, ha]
      exact spring_bump_inv (Real.pi / 4) s.angleZ s.angleAcceleration T hB h1 h2 h3 h4 hT1 hT2
    · unfold YawInv
      rw [hz, ha]
      exact spring_decay_inv (Real.pi / 4) s.angleZ s.angleAcceleration hB h1 h2 h3 h4
  · rw [if_neg hr]
    exact h

theorem yawInv_initState : YawInv initState := by
  have hpi := Real.pi_pos
  unfold YawInv initState
  refine ⟨by simp; linarith, by simp; linarith, by simp; linarith, by simp; linarith⟩

theorem yawInv_runController (inputs : List FrameInput) :
    YawInv (runController inputs) := by
  suffices haux : ∀ (l : List FrameInput) (s : ControlState), YawInv s →
      YawInv (List.foldl (fun s i => controllerFrame i s) s l) from
    haux inputs initState yawInv_initState
  intro l
  induction l with
  | nil => exact fun s hs => hs
  | cons i l ih => exact fun s hs => ih _ (yawInv_controllerFrame i s hs)

/-- Claim C2: on every frame of every run from the initial state, the yaw
and pitch actually written to the entity's rotation lie in `[-45°, 45°]`
(that is, `[-pi/4, pi/4]` radians) and `[-30°, 30°]` (`[-pi/6, pi/6]`)
respectively, however far the unclamped spring output overshoots: the pitch
is clamped directly, and the clamped yaw target keeps the integrated yaw
inside the range. -/
theorem applied_rotation_bounds (inputs : List FrameInput) (i : FrameInput) :
    -(Real.pi / 4) ≤ appliedYaw i (runController inputs) ∧
    appliedYaw i (runController inputs) ≤ Real.pi / 4 ∧
    -(Real.pi / 6) ≤ appliedPitch i (runController inputs) ∧
    appliedPitch i (runController inputs) ≤ Real.pi / 6 := by
  have h := yawInv_controllerFrame i _ (yawInv_runController inputs)
  have hpi := Real.pi_pos
  exact ⟨h.1, h.2.1, le_clampR _ _ _, clampR_le (by linarith)⟩

theorem camIter_closed (turbo : ℝ) (s : CameraState) : ∀ n : ℕ,
    (camIter turbo n s).fov - camTargetFov turbo =
      0.98 ^ n * (s.fov - camTargetFov turbo) ∧
    (camIter turbo n s).position.x - (camTargetPos turbo).x =
      0.95 ^ n * (s.position.x - (camTargetPos turbo).x) ∧
    (camIter turbo n s).position.y - (camTargetPos turbo).y =
      0.95 ^ n * (s.position.y - (camTargetPos turbo).y) ∧
    (camIter turbo n s).position.z - (camTargetPos turbo).z =
      0.95 ^ n * (s.position.z - (camTargetPos turbo).z) := by
  intro n
  induction n with
  | zero => simp [camIter]
  | succ n ih =>
    obtain ⟨hf, hx, hy, hz⟩ := ih
    refine ⟨?_, ?_, ?_, ?_⟩ <;>
      simp only [camIter, cameraFrame, vecLerp, mathLerp, pow_succ] <;>
      nlinarith [hf, hx, hy, hz]

theorem abs_geom_le_of_pow_lt {p q ε M Δ : ℝ} (hq0 : 0 ≤ q) (hΔ : |Δ| ≤ M)
    (hM : 0 < M) (hq : q < ε / M) (hpq : p ≤ q) (hp0 : 0 ≤ p) :
    |p * Δ| ≤ ε := by
  rw [abs_mul, abs_of_nonneg hp0]
  calc p * |Δ| ≤ q * M := mul_le_mul hpq hΔ (abs_nonneg _) hq0
    _ ≤ ε / M * M := mul_le_mul_of_nonneg_right (le_of_lt hq) (le_of_lt hM)
    _ = ε := div_mul_cancel₀ ε (ne_of_gt hM)

/-- Claim C6: for a constant camera target and any starting state, iterating
`CameraRig`'s per-frame update brings the position components and the FOV
within any positive epsilon of the target after sufficiently many frames;
meanwhile the distance to the target never increases from one frame to the
next, and the value never overshoots past the target (the signed offset
keeps the sign of the initial offset). -/
theorem cameraRig_convergence (turbo : ℝ) (s : CameraState) (ε : ℝ) (hε : 0 < ε) :
    (∃ N : ℕ, ∀ n : ℕ, N ≤ n →
      |(camIter turbo n s).fov - camTargetFov turbo| ≤ ε ∧
      |(camIter turbo n s).position.x - (camTargetPos turbo).x| ≤ ε ∧
      |(camIter turbo n s).position.y - (camTargetPos turbo).y| ≤ ε ∧
      |(camIter turbo n s).position.z - (camTargetPos turbo).z| ≤ ε) ∧
    (∀ n : ℕ,
      |(camIter turbo (n + 1) s).fov - camTargetFov turbo| ≤
        |(camIter turbo n s).fov - camTargetFov turbo| ∧
      |(camIter turbo (n + 1) s).position.x - (camTargetPos turbo).x| ≤
        |(camIter turbo n s).position.x - (camTargetPos turbo).x| ∧
      |(camIter turbo (n + 1) s).position.y - (camTargetPos turbo).y| ≤
        |(camIter turbo n s).position.y - (camTargetPos turbo).y| ∧
      |(camIter turbo (n + 1) s).position.z - (camTargetPos turbo).z| ≤
        |(camIter turbo n s).position.z - (camTargetPos turbo).z|) ∧
    (∀ n : ℕ,
      0 ≤ ((camIter turbo n s).fov - camTargetFov turbo) *
        (s.fov - camTargetFov turbo) ∧
      0 ≤ ((camIter turbo n s).position.x - (camTargetPos turbo).x) *
        (s.position.x - (camTargetPos turbo).x) ∧
      0 ≤ ((camIter turbo n s).position.y - (camTargetPos turbo).y) *
        (s.position.y - (camTargetPos turbo).y) ∧
      0 ≤ ((camIter turbo n s).position.z - (camTargetPos turbo).z) *
        (s.position.z - (camTargetPos turbo).z)) := by
  have hcl := camIter_closed turbo s
  refine ⟨?_, ?_, ?_⟩
  · -- eventual epsilon bound
    set Δf := s.fov - camTargetFov turbo with hΔf
    set Δx := s.position.x - (camTargetPos turbo).x with hΔx
    set Δy := s.position.y - (camTargetPos turbo).y with hΔy
    set Δz := s.position.z - (camTargetPos turbo).z with hΔz
    set M := |Δf| + |Δx| + |Δy| + |Δz| + 1 with hMdef
    have hM : 0 < M := by positivity
    obtain ⟨N, hN⟩ := exists_pow_lt_of_lt_one (div_pos hε hM)
      (show (0.98 : ℝ) < 1 by norm_num)
    refine ⟨N, fun n hn => ?_⟩
    have hpow : (0.98 : ℝ) ^ n ≤ 0.98 ^ N :=
      pow_le_pow_of_le_one (by norm_num) (by norm_num) hn
    have hq : (0.98 : ℝ) ^ n < ε / M := lt_of_le_of_lt hpow hN
    have hq0 : (0 : ℝ) ≤ 0.98 ^ n := by positivity
    have hps : (0.95 : ℝ) ^ n ≤ 0.98 ^ n :=
      pow_le_pow_left₀ (by norm_num) (by norm_num) n
    have hps0 : (0 : ℝ) ≤ 0.95 ^ n := by positivity
    obtain ⟨hf, hx, hy, hz⟩ := hcl n
    refine ⟨?_, ?_, ?_, ?_⟩
    · rw [hf]
      exact abs_geom_le_of_pow_lt hq0
        (by rw [hMdef]; linarith [abs_nonneg Δx, abs_nonneg Δy, abs_nonneg Δz])
        hM hq le_rfl hq0
    · rw [hx]
      exact abs_geom_le_of_pow_lt hq0
        (by rw [hMdef]; linarith [abs_nonneg Δf, abs_nonneg Δy, abs_nonneg Δz])
        hM hq hps hps0
    · rw [hy]
      exact abs_geom_le_of_pow_lt hq0
        (by rw [hMdef]; linarith [abs_nonneg Δf, abs_nonneg Δx, abs_nonneg Δz])
        hM hq hps hps0
    · rw [hz]
      exact abs_geom_le_of_pow_lt hq0
        (by rw [hMdef]; linarith [abs_nonneg Δf, abs_nonneg Δx, abs_nonneg Δy])
        hM hq hps hps0
  · -- per-frame monotonicity
    intro n
    obtain ⟨hf, hx, hy, hz⟩ := hcl n
    obtain ⟨hf', hx', hy', hz'⟩ := hcl (n + 1)
    refine ⟨?_, ?_, ?_, ?_⟩ <;>
      [rw [hf, hf']; rw [hx, hx']; rw [hy, hy']; rw [hz, hz']] <;>
      rw [abs_mul, abs_mul] <;>
      refine mul_le_mul_of_nonneg_right ?_ (abs_nonneg _) <;>
      rw [abs_pow, abs_pow] <;>
      refine pow_le_pow_of_le_one (abs_nonneg _)
        (abs_le.mpr (by constructor <;> norm_num)) (Nat.le_succ n)
  · -- no overshoot: the offset keeps its initial sign
    intro n
    obtain ⟨hf, hx, hy, hz⟩ := hcl n
    refine ⟨?_, ?_, ?_, ?_⟩ <;> [rw [hf]; rw [hx]; rw [hy]; rw [hz]] <;>
      rw [mul_assoc] <;>
      exact mul_nonneg (by positivity) (mul_self_nonneg _)

/-- Witness for `cameraRig_convergence` at `turbo = 0`, the initial camera
state and `epsilon = 1`. -/
theorem cameraRig_convergence_witness :
    (∃ N : ℕ, ∀ n : ℕ, N ≤ n →
      |(camIter 0 n cameraInit).fov - camTargetFov 0| ≤ 1 ∧
      |(camIter 0 n cameraInit).position.x - (camTargetPos 0).x| ≤ 1 ∧
      |(camIter 0 n cameraInit).position.y - (camTargetPos 0).y| ≤ 1 ∧
      |(camIter 0 n cameraInit).position.z - (camTargetPos 0).z| ≤ 1) ∧
    (∀ n : ℕ,
      |(camIter 0 (n + 1) cameraInit).fov - camTargetFov 0| ≤
        |(camIter 0 n cameraInit).fov - camTargetFov 0| ∧
      |(camIter 0 (n + 1) cameraInit).position.x - (camTargetPos 0).x| ≤
        |(camIter 0 n cameraInit).position.x - (camTargetPos 0).x| ∧
      |(camIter 0 (n + 1) cameraInit).position.y - (camTargetPos 0).y| ≤
        |(camIter 0 n cameraInit).position.y - (camTargetPos 0).y| ∧
      |(camIter 0 (n + 1) cameraInit).position.z - (camTargetPos 0).z| ≤
        |(camIter 0 n cameraInit).position.z - (camTargetPos 0).z|) ∧
    (∀ n : ℕ,
      0 ≤ ((camIter 0 n cameraInit).fov - camTargetFov 0) *
        (cameraInit.fov - camTargetFov 0) ∧
      0 ≤ ((camIter 0 n cameraInit).position.x - (camTargetPos 0).x) *
        (cameraInit.position.x - (camTargetPos 0).x) ∧
      0 ≤ ((camIter 0 n cameraInit).position.y - (camTargetPos 0).y) *
        (cameraInit.position.y - (camTargetPos 0).y) ∧
      0 ≤ ((camIter 0 n cameraInit).position.z - (camTargetPos 0).z) *
        (cameraInit.position.z - (camTargetPos 0).z)) :=
  cameraRig_convergence 0 cameraInit 1 (by norm_num)
